import Mathlib

set_option maxHeartbeats 2000000

/-!
Shallow embedding of the Game Boy emulator core (`src/mmu.cpp`, `src/cpu.cpp`,
`include/gb/mmu.h`, `include/gb/cpu.h`).

Machine integers are modelled on `Nat`, with `% 256` / `% 65536` inserted
exactly where the C++ code truncates to `uint8_t` / `uint16_t`, and 32-bit
`int` intermediates represented by their two's-complement bit patterns
(`% 2^32`).  The fixed-size `std::array` memory regions are modelled as total
maps `Nat → Nat`; the ROM `std::vector` as a `List Nat`.  C++ operations whose
evaluation would be undefined behaviour (the `bank % max_banks` division by
zero in `MMU::CurrentRomBank` when the ROM holds no complete bank) are
modelled by `Option`, `none` marking the undefined case.
-/

/-- Memory-map constant `kBankSize` from `gb/mmu.h`. -/
def kBankSize : Nat := 0x4000

/-- Memory-map constant `kExtRamSize` from `gb/mmu.h`. -/
def kExtRamSize : Nat := 0x2000

/-- Memory-map constant `kOamSize` from `gb/mmu.h`. -/
def kOamSize : Nat := 0xA0

/-- The MMU state: the fields of `class MMU` in `gb/mmu.h`. -/
structure MMU where
  rom_ : List Nat
  vram_ : Nat → Nat
  ext_ram_ : Nat → Nat
  wram0_ : Nat → Nat
  wram1_ : Nat → Nat
  oam_ : Nat → Nat
  io_regs_ : Nat → Nat
  hram_ : Nat → Nat
  interrupt_enable_ : Nat
  ram_enable_ : Bool
  rom_bank_low5_ : Nat
  rom_bank_high2_ : Nat
  banking_mode_ : Nat

/-- Embeds `MMU::CurrentRomBank` (mmu.cpp lines 35-42).  `bank` is a `uint8_t`, so the
merged value is truncated `% 256`; `max_banks` is `rom_.size() / kBankSize`
cast to `uint8_t`.  When `max_banks` is zero the C++ `bank % max_banks` is a
division by zero (undefined behaviour), modelled as `none`. -/
def MMU.CurrentRomBank (m : MMU) : Option Nat :=
  let bank := ((m.rom_bank_high2_ <<< 5) ||| (m.rom_bank_low5_ &&& 0x1F)) % 256
  let bank := if bank &&& 0x1F = 0 then bank ||| 1 else bank
  let max_banks := (m.rom_.length / kBankSize) % 256
  if max_banks = 0 then none else some (bank % max_banks)

/-- Embeds `MMU::CurrentRamBank` (mmu.cpp lines 44-46). -/
def MMU.CurrentRamBank (m : MMU) : Nat :=
  if m.banking_mode_ = 0 then 0 else m.rom_bank_high2_ &&& 0x03

/-- The external-RAM branch of `MMU::Read` (mmu.cpp lines 62-68): `0xFF`
when RAM is disabled or the banked offset is out of range, otherwise the
stored byte.  Split out of `MMU.Read` only to keep its body
well-founded-friendly. -/
def MMU.readExtRam (m : MMU) (address : Nat) : Nat :=
  if !m.ram_enable_ then 0xFF
  else
    let rb := m.CurrentRamBank
    let off := rb * kExtRamSize + (address - 0xA000)
    if off < kExtRamSize then m.ext_ram_ off else 0xFF

/-- Embeds `MMU::Read` (mmu.cpp lines 48-92).  The echo region recurses with
`address - 0x2000` exactly as the source does; the external-RAM branch is
`MMU.readExtRam`.  `none` occurs only when the switchable-bank branch hits
the `CurrentRomBank` division by zero. -/
def MMU.Read (m : MMU) (address : Nat) : Option Nat :=
  if _h1 : address < 0x4000 then
    some (if address < m.rom_.length then m.rom_.getD address 0 else 0xFF)
  else if _h2 : address < 0x8000 then
    match m.CurrentRomBank with
    | none => none
    | some bank =>
        let idx := bank * kBankSize + (address - kBankSize)
        some (if idx < m.rom_.length then m.rom_.getD idx 0 else 0xFF)
  else if _h3 : address < 0xA000 then
    some (m.vram_ (address - 0x8000))
  else if _h4 : address < 0xC000 then
    some (MMU.readExtRam m address)
  else if _h5 : address < 0xD000 then
    some (m.wram0_ (address - 0xC000))
  else if _h6 : address < 0xE000 then
    some (m.wram1_ (address - 0xD000))
  else if _h7 : address < 0xFE00 then
    MMU.Read m (address - 0x2000)
  else if _h8 : address < 0xFEA0 then
    some (m.oam_ (address - 0xFE00))
  else if _h9 : address < 0xFF00 then
    some 0xFF
  else if _h10 : address < 0xFF80 then
    some (m.io_regs_ (address - 0xFF00))
  else if _h11 : address < 0xFFFF then
    some (m.hram_ (address - 0xFF80))
  else
    some m.interrupt_enable_
termination_by address
decreasing_by simp_wf; omega

/-- The OAM-DMA copy loop inside `MMU::Write` (mmu.cpp lines 156-158):
`for (int i = 0; i < kOamSize; ++i) oam_[i] = Read(src + i);`.
`fuel` counts the remaining iterations, `i` is the loop counter; the
argument of `Read` is truncated to `uint16_t` as by the C++ call. -/
def MMU.dmaFrom (src : Nat) : Nat → Nat → MMU → Option MMU
  | _i, 0, m => some m
  | i, fuel + 1, m =>
      match MMU.Read m ((src + i) % 65536) with
      | none => none
      | some b =>
          MMU.dmaFrom src (i + 1) fuel
            {m with oam_ := fun j => if j = i then b else m.oam_ j}

/-- The branches of `MMU::Write` for `address ≥ 0xFE00` (mmu.cpp lines
144-168): OAM, the unusable region, I/O registers with the OAM-DMA trigger at
`0xFF46`, HRAM, and interrupt-enable.  Split out of `MMU.Write` only so that
the echo recursion in `MMU.Write` stays well-founded-friendly; the branch
structure is the source's. -/
def MMU.WriteHigh (m : MMU) (address value : Nat) : Option MMU :=
  if _h10 : address < 0xFEA0 then
    some {m with oam_ := fun j => if j = address - 0xFE00 then value else m.oam_ j}
  else if _h11 : address < 0xFF00 then
    some m
  else if _h12 : address < 0xFF80 then
    if address = 0xFF46 then
      (MMU.dmaFrom ((value <<< 8) % 65536) 0 kOamSize m).map fun m1 =>
        {m1 with io_regs_ := fun j => if j = address - 0xFF00 then value else m1.io_regs_ j}
    else
      some {m with io_regs_ := fun j => if j = address - 0xFF00 then value else m.io_regs_ j}
  else if _h13 : address < 0xFFFF then
    some {m with hram_ := fun j => if j = address - 0xFF80 then value else m.hram_ j}
  else
    some {m with interrupt_enable_ := value}

/-- The external-RAM branch of `MMU::Write` (mmu.cpp lines 120-130): the
write is dropped when RAM is disabled or the banked offset is out of range.
Split out of `MMU.Write` only to keep its body well-founded-friendly. -/
def MMU.writeExtRam (m : MMU) (address value : Nat) : MMU :=
  if m.ram_enable_ then
    let rb := m.CurrentRamBank
    let off := rb * kExtRamSize + (address - 0xA000)
    if off < kExtRamSize then
      {m with ext_ram_ := fun j => if j = off then value else m.ext_ram_ j}
    else m
  else m

/-- Embeds `MMU::Write` (mmu.cpp lines 94-168).  Echo writes recurse with
`address - 0x2000`, exactly as the source does; the external-RAM branch is
`MMU.writeExtRam` and the `address ≥ 0xFE00` branches are in
`MMU.WriteHigh`.  `none` occurs only when a DMA-sourced `Read` is
undefined. -/
def MMU.Write (m : MMU) (address value : Nat) : Option MMU :=
  if _h1 : address < 0x2000 then
    some {m with ram_enable_ := (value &&& 0x0F) = 0x0A}
  else if _h2 : address < 0x4000 then
    some {m with rom_bank_low5_ := value &&& 0x1F}
  else if _h3 : address < 0x6000 then
    some {m with rom_bank_high2_ := value &&& 0x03}
  else if _h4 : address < 0x8000 then
    some {m with banking_mode_ := value &&& 0x01}
  else if _h5 : address < 0xA000 then
    some {m with vram_ := fun j => if j = address - 0x8000 then value else m.vram_ j}
  else if _h6 : address < 0xC000 then
    some (MMU.writeExtRam m address value)
  else if _h7 : address < 0xD000 then
    some {m with wram0_ := fun j => if j = address - 0xC000 then value else m.wram0_ j}
  else if _h8 : address < 0xE000 then
    some {m with wram1_ := fun j => if j = address - 0xD000 then value else m.wram1_ j}
  else if _h9 : address < 0xFE00 then
    MMU.Write m (address - 0x2000) value
  else
    MMU.WriteHigh m address value
termination_by address
decreasing_by simp_wf; omega

/-- Embeds `MMU::LoadROM` (mmu.cpp lines 26-33): install the image and reset the
four mapper registers. -/
def MMU.LoadROM (m : MMU) (rom_data : List Nat) : MMU :=
  {m with rom_ := rom_data, ram_enable_ := false, rom_bank_low5_ := 1,
          rom_bank_high2_ := 0, banking_mode_ := 0}

/-- Embeds `MMU::Reset` (mmu.cpp lines 170-179): zero every on-board memory region
and the interrupt-enable byte.  The source touches nothing else. -/
def MMU.Reset (m : MMU) : MMU :=
  {m with vram_ := fun _ => 0, ext_ram_ := fun _ => 0, wram0_ := fun _ => 0,
          wram1_ := fun _ => 0, oam_ := fun _ => 0, io_regs_ := fun _ => 0,
          hram_ := fun _ => 0, interrupt_enable_ := 0}

/-- The state established by the `MMU` constructor (mmu.cpp lines 14-23 plus
the member initialisers in `gb/mmu.h`): all regions zeroed, no ROM loaded,
mapper registers at their declared defaults. -/
def MMU.construct : MMU :=
  { rom_ := [], vram_ := fun _ => 0, ext_ram_ := fun _ => 0, wram0_ := fun _ => 0,
    wram1_ := fun _ => 0, oam_ := fun _ => 0, io_regs_ := fun _ => 0,
    hram_ := fun _ => 0, interrupt_enable_ := 0, ram_enable_ := false,
    rom_bank_low5_ := 1, rom_bank_high2_ := 0, banking_mode_ := 0 }

/-! Region-by-region characterisations of `MMU.Read` and `MMU.Write`,
obtained by resolving the address-range tests of the source. -/

/-- The merged pre-modulo bank value computed by `MMU::CurrentRomBank`
(mmu.cpp lines 37-38): `(high2 << 5) | (low5 & 0x1F)` truncated to `uint8_t`,
with the zero-low-5 remap `bank |= 1`, before the `% max_banks` reduction. -/
def MMU.mergedRomBank (m : MMU) : Nat :=
  let bank := ((m.rom_bank_high2_ <<< 5) ||| (m.rom_bank_low5_ &&& 0x1F)) % 256
  if bank &&& 0x1F = 0 then bank ||| 1 else bank

/-- A state with nonzero mapper registers, used to show `MMU::Reset` does not
restore them. -/
def c2State : MMU :=
  {MMU.construct with ram_enable_ := true, rom_bank_low5_ := 5,
                      rom_bank_high2_ := 2, banking_mode_ := 1}

/-- A one-bank (exactly 16 KiB) ROM image: `max_banks = 1`. -/
def oneBankRom : List Nat := List.replicate 0x4000 0

/-- What actually holds after a write to the ROM-bank-select range: the
pre-modulo merged bank is never `0x00`, `0x20`, `0x40` or `0x60`, and the
effective bank is that value reduced modulo the image's bank count. -/
def C3Post (m' : MMU) : Prop :=
  MMU.mergedRomBank m' ≠ 0x00 ∧ MMU.mergedRomBank m' ≠ 0x20 ∧
  MMU.mergedRomBank m' ≠ 0x40 ∧ MMU.mergedRomBank m' ≠ 0x60 ∧
  MMU.CurrentRomBank m' = (if (m'.rom_.length / kBankSize) % 256 = 0 then none
    else some (MMU.mergedRomBank m' % ((m'.rom_.length / kBankSize) % 256)))

/-- The OAM copy described by the C5 claim sentence: for each `k` from 0 to
159 in increasing order, OAM byte `k` is set to the value `Read((v << 8) + k)`
returns under the MMU's own read routing at that point of the copy.  Written
from the claim's words, to be compared with the source-derived
`MMU.dmaFrom`. -/
def specOamCopyAux (v : Nat) : Nat → Nat → MMU → Option MMU
  | _k, 0, m => some m
  | k, n + 1, m =>
      match MMU.Read m ((v <<< 8) + k) with
      | none => none
      | some byte =>
          specOamCopyAux v (k + 1) n {m with oam_ := fun j => if j = k then byte else m.oam_ j}

/-- The claim's 160-byte copy, starting at OAM byte 0. -/
def specOamCopy (m : MMU) (v : Nat) : Option MMU := specOamCopyAux v 0 160 m

/-- Outcome of a DMA write claimed by C5: the final OAM equals the claim's
copy, the I/O register holds `v`, and reading `0xFF46` returns `v`. -/
def C5Post (m : MMU) (v : Nat) (m' : MMU) : Prop :=
  (∃ mc, specOamCopy m v = some mc ∧ m'.oam_ = mc.oam_) ∧
  m'.io_regs_ = (fun j => if j = 0x46 then v else m.io_regs_ j) ∧
  MMU.Read m' 0xFF46 = some v

/-- Flag mask `kZeroFlagMask` from `gb/cpu.h`. -/
def kZeroFlagMask : Nat := 0x80

/-- Flag mask `kSubtractFlagMask` from `gb/cpu.h`. -/
def kSubtractFlagMask : Nat := 0x40

/-- Flag mask `kHalfCarryFlagMask` from `gb/cpu.h`. -/
def kHalfCarryFlagMask : Nat := 0x20

/-- Flag mask `kCarryFlagMask` from `gb/cpu.h`. -/
def kCarryFlagMask : Nat := 0x10

/-- The CPU register file: the data members of `class CPU` in `gb/cpu.h`. -/
structure CPU where
  a_ : Nat
  f_ : Nat
  b_ : Nat
  c_ : Nat
  d_ : Nat
  e_ : Nat
  h_ : Nat
  l_ : Nat
  sp_ : Nat
  pc_ : Nat
  ime_ : Bool
  cycles_ : Nat
  ei_delay_ : Bool
  halted_ : Bool

/-- The machine state: the CPU together with the MMU singleton it accesses
through `MMU::Instance()`. -/
structure GB where
  cpu : CPU
  mmu : MMU

/-- Embeds `CPU::SetFlag` (cpu.cpp lines 59-66).  `f_ &= ~flag_mask` on the
`uint8_t` field is `f_ &&& (flag_mask ^^^ 0xFF)`; the final line masks the
low nibble away. -/
def SetFlag (c : CPU) (flag_mask : Nat) (set : Bool) : CPU :=
  let f := if set then c.f_ ||| flag_mask else c.f_ &&& (flag_mask ^^^ 0xFF)
  {c with f_ := f &&& 0xF0}

/-- Embeds `CPU::GetFlag` (cpu.cpp lines 68-70). -/
def GetFlag (c : CPU) (flag_mask : Nat) : Bool :=
  (c.f_ &&& flag_mask) != 0

/-- Embeds `CPU::hl` (cpu.h line 46), truncated to `uint16_t` as by the return
type. -/
def CPU.hl (c : CPU) : Nat := ((c.h_ <<< 8) ||| c.l_) % 65536

/-- Embeds `CPU::set_hl` (cpu.h lines 48-51). -/
def CPU.set_hl (c : CPU) (val : Nat) : CPU :=
  {c with h_ := (val >>> 8) % 256, l_ := val &&& 0xFF}

/-- Embeds `CPU::FetchOpcode` (cpu.cpp lines 21-25): read the MMU at `pc_` and
post-increment `pc_` (wrapping as `uint16_t`). -/
def FetchOpcode (s : GB) : Option (Nat × GB) :=
  (MMU.Read s.mmu s.cpu.pc_).map fun opcode =>
    (opcode, {s with cpu := {s.cpu with pc_ := (s.cpu.pc_ + 1) % 65536}})

/-- Embeds `CPU::Fetch8` (cpu.cpp lines 27-29). -/
def Fetch8 (s : GB) : Option (Nat × GB) := FetchOpcode s

/-- Embeds `CPU::PushWord` (cpu.cpp lines 74-79): decrement SP, write the high
byte, decrement SP, write the low byte. -/
def PushWord (s : GB) (word : Nat) : Option GB :=
  (MMU.Write s.mmu ((s.cpu.sp_ + 65535) % 65536) ((word >>> 8) % 256)).bind fun m1 =>
    (MMU.Write m1 (((s.cpu.sp_ + 65535) % 65536 + 65535) % 65536) (word &&& 0xFF)).map
      fun m2 =>
        {cpu := {s.cpu with sp_ := ((s.cpu.sp_ + 65535) % 65536 + 65535) % 65536}, mmu := m2}

/-- Embeds `CPU::PopWord` (cpu.cpp lines 81-87): read the low byte at SP, increment
SP, read the high byte, increment SP, return `(high << 8) | low` as
`uint16_t`. -/
def PopWord (s : GB) : Option (Nat × GB) :=
  (MMU.Read s.mmu s.cpu.sp_).bind fun low =>
    (MMU.Read s.mmu ((s.cpu.sp_ + 1) % 65536)).map fun high =>
      (((high <<< 8) ||| low) % 65536,
       {s with cpu := {s.cpu with sp_ := ((s.cpu.sp_ + 1) % 65536 + 1) % 65536}})

/-- Embeds `OpPUSH_BC` (cpu.cpp line 745). -/
def OpPUSH_BC (s : GB) : Option GB :=
  PushWord s (((s.cpu.b_ <<< 8) ||| s.cpu.c_) % 65536)

/-- Embeds `OpPUSH_DE` (cpu.cpp line 746). -/
def OpPUSH_DE (s : GB) : Option GB :=
  PushWord s (((s.cpu.d_ <<< 8) ||| s.cpu.e_) % 65536)

/-- Embeds `OpPUSH_HL` (cpu.cpp line 747). -/
def OpPUSH_HL (s : GB) : Option GB := PushWord s s.cpu.hl

/-- Embeds `OpPUSH_AF` (cpu.cpp line 748). -/
def OpPUSH_AF (s : GB) : Option GB :=
  PushWord s (((s.cpu.a_ <<< 8) ||| s.cpu.f_) % 65536)

/-- Embeds `OpPOP_BC` (cpu.cpp line 750). -/
def OpPOP_BC (s : GB) : Option GB :=
  (PopWord s).map fun p =>
    {p.2 with cpu := {p.2.cpu with b_ := (p.1 >>> 8) % 256, c_ := p.1 &&& 0xFF}}

/-- Embeds `OpPOP_DE` (cpu.cpp line 751). -/
def OpPOP_DE (s : GB) : Option GB :=
  (PopWord s).map fun p =>
    {p.2 with cpu := {p.2.cpu with d_ := (p.1 >>> 8) % 256, e_ := p.1 &&& 0xFF}}

/-- Embeds `OpPOP_HL` (cpu.cpp line 752). -/
def OpPOP_HL (s : GB) : Option GB :=
  (PopWord s).map fun p => {p.2 with cpu := CPU.set_hl p.2.cpu p.1}

/-- Embeds `OpPOP_AF` (cpu.cpp line 753): the popped low byte is masked with `0xF0`
before being stored in `f_`. -/
def OpPOP_AF (s : GB) : Option GB :=
  (PopWord s).map fun p =>
    {p.2 with cpu := {p.2.cpu with a_ := (p.1 >>> 8) % 256, f_ := p.1 &&& 0xF0}}

/-- Addresses in directly writable, side-effect-free memory: work RAM or
HRAM, the claim's examples. -/
def StackSafe (a : Nat) : Prop :=
  (0xC000 ≤ a ∧ a < 0xE000) ∨ (0xFF80 ≤ a ∧ a < 0xFFFF)

/-- Conclusion of the push/pop round-trip claim at machine state `s`. -/
def C7Restores (s : GB) : Prop :=
  (∃ s2, (OpPUSH_BC s).bind OpPOP_BC = some s2 ∧
     s2.cpu.b_ = s.cpu.b_ ∧ s2.cpu.c_ = s.cpu.c_ ∧ s2.cpu.sp_ = s.cpu.sp_) ∧
  (∃ s2, (OpPUSH_DE s).bind OpPOP_DE = some s2 ∧
     s2.cpu.d_ = s.cpu.d_ ∧ s2.cpu.e_ = s.cpu.e_ ∧ s2.cpu.sp_ = s.cpu.sp_) ∧
  (∃ s2, (OpPUSH_HL s).bind OpPOP_HL = some s2 ∧
     s2.cpu.h_ = s.cpu.h_ ∧ s2.cpu.l_ = s.cpu.l_ ∧ s2.cpu.sp_ = s.cpu.sp_) ∧
  (∃ s2, (OpPUSH_AF s).bind OpPOP_AF = some s2 ∧
     s2.cpu.a_ = s.cpu.a_ ∧ s2.cpu.f_ &&& 0x0F = 0 ∧ s2.cpu.sp_ = s.cpu.sp_)

/-- A concrete machine whose stack sits in work RAM, for the C7 witness. -/
def c7Machine : GB :=
  { cpu := { a_ := 0x12, f_ := 0x35, b_ := 0x34, c_ := 0x56, d_ := 0x78, e_ := 0x9A,
             h_ := 0xBC, l_ := 0xDE, sp_ := 0xC102, pc_ := 0x0100, ime_ := false,
             cycles_ := 0, ei_delay_ := false, halted_ := false },
    mmu := MMU.construct }

/-- Two's-complement 32-bit pattern of `static_cast<int8_t>(b)` for a byte
`b < 256`, as the value participates in C++ `int` arithmetic. -/
def int8U32 (b : Nat) : Nat := if b < 128 then b else 0xFFFFFF00 + b

/-- Embeds `CPU::OpADD_SP_r8` (cpu.cpp lines 498-510): fetch the offset byte,
sign-extend it, add to SP as `int` and truncate to `uint16_t`, set flags with
the xor formulation, store the result in SP.  Flag updates go through
`SetFlag` in source order. -/
def OpADD_SP_r8 (s : GB) : Option GB :=
  (Fetch8 s).map fun p =>
    let offset := int8U32 p.1
    let current_sp := p.2.cpu.sp_
    let result := (current_sp + offset) % 65536
    let c1 := SetFlag p.2.cpu kZeroFlagMask false
    let c2 := SetFlag c1 kSubtractFlagMask false
    let c3 := SetFlag c2 kHalfCarryFlagMask
      (((current_sp ^^^ offset ^^^ result) &&& 0x10) != 0)
    let c4 := SetFlag c3 kCarryFlagMask
      (((current_sp ^^^ offset ^^^ result) &&& 0x100) != 0)
    {p.2 with cpu := {c4 with sp_ := result}}

/-- The flag outcome asserted for `ADD SP, -1` from SP = 0: the result is
`0xFFFF` and, contrary to the claim's `H = 1, C = 1`, both H and C are 0
(`(0 & 0x0F) + (0xFF & 0x0F) = 0x0F` does not exceed `0x0F`, and
`0x00 + 0xFF = 0xFF` does not exceed `0xFF`). -/
def C4Post (s' : GB) : Prop :=
  s'.cpu.sp_ = 0xFFFF ∧ GetFlag s'.cpu kZeroFlagMask = false ∧
  GetFlag s'.cpu kSubtractFlagMask = false ∧
  GetFlag s'.cpu kHalfCarryFlagMask = false ∧ GetFlag s'.cpu kCarryFlagMask = false

/-- A concrete machine with SP = 0 about to execute an operand byte `0xFF`
(the ROM image is the single byte `0xFF` and PC = 0). -/
def c4Machine : GB :=
  { cpu := { a_ := 0, f_ := 0xF0, b_ := 0, c_ := 0, d_ := 0, e_ := 0, h_ := 0, l_ := 0,
             sp_ := 0, pc_ := 0, ime_ := false, cycles_ := 0, ei_delay_ := false,
             halted_ := false },
    mmu := MMU.LoadROM MMU.construct [0xFF] }

/-- Embeds `CPU::OpPREFIX_CB` (cpu.cpp lines 780-784): the handler only writes a
diagnostic line to `std::cerr`; no data member of the CPU or the MMU is
assigned, so on the machine state it is the identity. -/
def OpPREFIX_CB (s : GB) : GB := s

/-- Modelled from the spec: the dispatch table is built from
`gb/opcode_list.h`, which is not among the sources; per the spec the `0xCB`
entry is present and dispatches to `PREFIX_CB`.  `StepAtCB` is `CPU::Step`
(cpu.cpp lines 52-55) on a machine whose next opcode byte is `0xCB`: fetch
the opcode (post-incrementing PC) and run the `PREFIX_CB` handler. -/
def StepAtCB (s : GB) : Option GB :=
  (FetchOpcode s).bind fun p =>
    if p.1 = 0xCB then some (OpPREFIX_CB p.2) else none

/-- A concrete machine about to execute `0xCB` (ROM image `[0xCB]`, PC = 0). -/
def c8Machine : GB :=
  { cpu := { a_ := 1, f_ := 0xF0, b_ := 2, c_ := 3, d_ := 4, e_ := 5, h_ := 6, l_ := 7,
             sp_ := 0xFFFE, pc_ := 0, ime_ := true, cycles_ := 0, ei_delay_ := false,
             halted_ := false },
    mmu := MMU.LoadROM MMU.construct [0xCB] }

/-- The xor flag formulation used by `CPU::OpADD_SP_r8` (cpu.cpp lines
505-506) and `CPU::OpLD_HL_SPplusr8` (cpu.cpp lines 334-335): H and C of the
SP+offset operation, from `(sp ^ offset ^ result) & 0x10` and `& 0x100`. -/
def spOffsetFlagsXor (sp b : Nat) : Bool × Bool :=
  let offset := int8U32 b
  let result := (sp + offset) % 65536
  ((((sp ^^^ offset ^^^ result) &&& 0x10) != 0),
   (((sp ^^^ offset ^^^ result) &&& 0x100) != 0))

/-- The low-byte flag formulation stated by the spec (the commented-out
alternative at cpu.cpp lines 507-508 and 337-338): H from
`((SP & 0x0F) + (offset & 0x0F)) > 0x0F`, C from
`((SP & 0xFF) + (offset & 0xFF)) > 0xFF`. -/
def spOffsetFlagsLow (sp b : Nat) : Bool × Bool :=
  let offset := int8U32 b
  (decide (((sp &&& 0x0F) + (offset &&& 0x0F)) > 0x0F),
   decide (((sp &&& 0xFF) + (offset &&& 0xFF)) > 0xFF))

/-- Embeds `MMU::Read` in explicit state-passing form: the same branches as
`MMU.Read`, with the (const) receiver state threaded through and returned
next to the value.  Every branch of the source assigns no member, so each
returns the incoming state; the echo branch recurses like the source. -/
def MMU.ReadS (m : MMU) (address : Nat) : Option (Nat × MMU) :=
  if _h1 : address < 0x4000 then
    some (if address < m.rom_.length then m.rom_.getD address 0 else 0xFF, m)
  else if _h2 : address < 0x8000 then
    match m.CurrentRomBank with
    | none => none
    | some bank =>
        let idx := bank * kBankSize + (address - kBankSize)
        some (if idx < m.rom_.length then m.rom_.getD idx 0 else 0xFF, m)
  else if _h3 : address < 0xA000 then
    some (m.vram_ (address - 0x8000), m)
  else if _h4 : address < 0xC000 then
    some (MMU.readExtRam m address, m)
  else if _h5 : address < 0xD000 then
    some (m.wram0_ (address - 0xC000), m)
  else if _h6 : address < 0xE000 then
    some (m.wram1_ (address - 0xD000), m)
  else if _h7 : address < 0xFE00 then
    MMU.ReadS m (address - 0x2000)
  else if _h8 : address < 0xFEA0 then
    some (m.oam_ (address - 0xFE00), m)
  else if _h9 : address < 0xFF00 then
    some (0xFF, m)
  else if _h10 : address < 0xFF80 then
    some (m.io_regs_ (address - 0xFF00), m)
  else if _h11 : address < 0xFFFF then
    some (m.hram_ (address - 0xFF80), m)
  else
    some (m.interrupt_enable_, m)
termination_by address
decreasing_by simp_wf; omega

/-! Properties of the embedded operations, and the claim theorems. -/

theorem MMU.Read_rom0 (m : MMU) (a : Nat) (h : a < 0x4000) :
    MMU.Read m a = some (if a < m.rom_.length then m.rom_.getD a 0 else 0xFF) := by
  rw [MMU.Read.eq_def, dif_pos h]

theorem MMU.Read_bank_none (m : MMU) (a : Nat) (h1 : 0x4000 ≤ a) (h2 : a < 0x8000)
    (hb : m.CurrentRomBank = none) : MMU.Read m a = none := by
  rw [MMU.Read.eq_def, dif_neg (by omega), dif_pos (by omega), hb]

theorem MMU.Read_bank_some (m : MMU) (a bank : Nat) (h1 : 0x4000 ≤ a) (h2 : a < 0x8000)
    (hb : m.CurrentRomBank = some bank) :
    MMU.Read m a = some (if bank * kBankSize + (a - kBankSize) < m.rom_.length
      then m.rom_.getD (bank * kBankSize + (a - kBankSize)) 0 else 0xFF) := by
  rw [MMU.Read.eq_def, dif_neg (by omega), dif_pos (by omega), hb]

theorem MMU.Read_vram (m : MMU) (a : Nat) (h1 : 0x8000 ≤ a) (h2 : a < 0xA000) :
    MMU.Read m a = some (m.vram_ (a - 0x8000)) := by
  rw [MMU.Read.eq_def, dif_neg (by omega), dif_neg (by omega), dif_pos (by omega)]

theorem MMU.Read_extram (m : MMU) (a : Nat) (h1 : 0xA000 ≤ a) (h2 : a < 0xC000) :
    MMU.Read m a = some (MMU.readExtRam m a) := by
  rw [MMU.Read.eq_def, dif_neg (by omega), dif_neg (by omega), dif_neg (by omega),
      dif_pos (by omega)]

theorem MMU.Read_wram0 (m : MMU) (a : Nat) (h1 : 0xC000 ≤ a) (h2 : a < 0xD000) :
    MMU.Read m a = some (m.wram0_ (a - 0xC000)) := by
  rw [MMU.Read.eq_def, dif_neg (by omega), dif_neg (by omega), dif_neg (by omega),
      dif_neg (by omega), dif_pos (by omega)]

theorem MMU.Read_wram1 (m : MMU) (a : Nat) (h1 : 0xD000 ≤ a) (h2 : a < 0xE000) :
    MMU.Read m a = some (m.wram1_ (a - 0xD000)) := by
  rw [MMU.Read.eq_def, dif_neg (by omega), dif_neg (by omega), dif_neg (by omega),
      dif_neg (by omega), dif_neg (by omega), dif_pos (by omega)]

theorem MMU.Read_echo (m : MMU) (a : Nat) (h1 : 0xE000 ≤ a) (h2 : a < 0xFE00) :
    MMU.Read m a = MMU.Read m (a - 0x2000) := by
  rw [MMU.Read.eq_def]
  rw [dif_neg (by omega), dif_neg (by omega), dif_neg (by omega), dif_neg (by omega),
      dif_neg (by omega), dif_neg (by omega), dif_pos (by omega)]

theorem MMU.Read_oam (m : MMU) (a : Nat) (h1 : 0xFE00 ≤ a) (h2 : a < 0xFEA0) :
    MMU.Read m a = some (m.oam_ (a - 0xFE00)) := by
  rw [MMU.Read.eq_def]
  rw [dif_neg (by omega), dif_neg (by omega), dif_neg (by omega), dif_neg (by omega),
      dif_neg (by omega), dif_neg (by omega), dif_neg (by omega), dif_pos (by omega)]

theorem MMU.Read_unusable (m : MMU) (a : Nat) (h1 : 0xFEA0 ≤ a) (h2 : a < 0xFF00) :
    MMU.Read m a = some 0xFF := by
  rw [MMU.Read.eq_def]
  rw [dif_neg (by omega), dif_neg (by omega), dif_neg (by omega), dif_neg (by omega),
      dif_neg (by omega), dif_neg (by omega), dif_neg (by omega), dif_neg (by omega),
      dif_pos (by omega)]

theorem MMU.Read_io (m : MMU) (a : Nat) (h1 : 0xFF00 ≤ a) (h2 : a < 0xFF80) :
    MMU.Read m a = some (m.io_regs_ (a - 0xFF00)) := by
  rw [MMU.Read.eq_def]
  rw [dif_neg (by omega), dif_neg (by omega), dif_neg (by omega), dif_neg (by omega),
      dif_neg (by omega), dif_neg (by omega), dif_neg (by omega), dif_neg (by omega),
      dif_neg (by omega), dif_pos (by omega)]

theorem MMU.Read_hram (m : MMU) (a : Nat) (h1 : 0xFF80 ≤ a) (h2 : a < 0xFFFF) :
    MMU.Read m a = some (m.hram_ (a - 0xFF80)) := by
  rw [MMU.Read.eq_def]
  rw [dif_neg (by omega), dif_neg (by omega), dif_neg (by omega), dif_neg (by omega),
      dif_neg (by omega), dif_neg (by omega), dif_neg (by omega), dif_neg (by omega),
      dif_neg (by omega), dif_neg (by omega), dif_pos (by omega)]

theorem MMU.Write_low5 (m : MMU) (a v : Nat) (h1 : 0x2000 ≤ a) (h2 : a < 0x4000) :
    MMU.Write m a v = some {m with rom_bank_low5_ := v &&& 0x1F} := by
  rw [MMU.Write.eq_def, dif_neg (by omega), dif_pos (by omega)]

theorem MMU.Write_wram0 (m : MMU) (a v : Nat) (h1 : 0xC000 ≤ a) (h2 : a < 0xD000) :
    MMU.Write m a v =
      some {m with wram0_ := fun j => if j = a - 0xC000 then v else m.wram0_ j} := by
  rw [MMU.Write.eq_def]
  rw [dif_neg (by omega), dif_neg (by omega), dif_neg (by omega), dif_neg (by omega),
      dif_neg (by omega), dif_neg (by omega), dif_pos (by omega)]

theorem MMU.Write_wram1 (m : MMU) (a v : Nat) (h1 : 0xD000 ≤ a) (h2 : a < 0xE000) :
    MMU.Write m a v =
      some {m with wram1_ := fun j => if j = a - 0xD000 then v else m.wram1_ j} := by
  rw [MMU.Write.eq_def]
  rw [dif_neg (by omega), dif_neg (by omega), dif_neg (by omega), dif_neg (by omega),
      dif_neg (by omega), dif_neg (by omega), dif_neg (by omega), dif_pos (by omega)]

theorem MMU.Write_echo (m : MMU) (a v : Nat) (h1 : 0xE000 ≤ a) (h2 : a < 0xFE00) :
    MMU.Write m a v = MMU.Write m (a - 0x2000) v := by
  rw [MMU.Write.eq_def]
  rw [dif_neg (by omega), dif_neg (by omega), dif_neg (by omega), dif_neg (by omega),
      dif_neg (by omega), dif_neg (by omega), dif_neg (by omega), dif_neg (by omega),
      dif_pos (by omega)]

theorem MMU.Write_high (m : MMU) (a v : Nat) (h1 : 0xFE00 ≤ a) :
    MMU.Write m a v = MMU.WriteHigh m a v := by
  rw [MMU.Write.eq_def]
  rw [dif_neg (by omega), dif_neg (by omega), dif_neg (by omega), dif_neg (by omega),
      dif_neg (by omega), dif_neg (by omega), dif_neg (by omega), dif_neg (by omega),
      dif_neg (by omega)]

theorem MMU.Write_hram (m : MMU) (a v : Nat) (h1 : 0xFF80 ≤ a) (h2 : a < 0xFFFF) :
    MMU.Write m a v =
      some {m with hram_ := fun j => if j = a - 0xFF80 then v else m.hram_ j} := by
  rw [MMU.Write_high m a v (by omega)]
  rw [MMU.WriteHigh]
  rw [dif_neg (by omega), dif_neg (by omega), dif_neg (by omega), dif_pos (by omega)]

theorem MMU.Write_dma (m : MMU) (v : Nat) :
    MMU.Write m 0xFF46 v =
      (MMU.dmaFrom ((v <<< 8) % 65536) 0 kOamSize m).map fun m1 =>
        {m1 with io_regs_ := fun j => if j = 0x46 then v else m1.io_regs_ j} := by
  rw [MMU.Write_high m 0xFF46 v (by omega)]
  rw [MMU.WriteHigh]
  rw [dif_neg (by omega), dif_neg (by omega), dif_pos (by omega), if_pos rfl]

theorem MMU.CurrentRomBank_eq_merged (m : MMU) :
    MMU.CurrentRomBank m = if (m.rom_.length / kBankSize) % 256 = 0 then none
      else some (MMU.mergedRomBank m % ((m.rom_.length / kBankSize) % 256)) := rfl

theorem MMU.mergedRomBank_low5_ne_zero (m : MMU) : MMU.mergedRomBank m &&& 0x1F ≠ 0 := by
  unfold MMU.mergedRomBank
  by_cases h0 : (((m.rom_bank_high2_ <<< 5) ||| (m.rom_bank_low5_ &&& 0x1F)) % 256) &&& 0x1F = 0
  · rw [if_pos h0, Nat.and_distrib_right, h0, Nat.zero_or]
    norm_num
  · rw [if_neg h0]
    exact h0

/-- C1: the specification claims `MMU::Read` never fails and that reads in
`0x4000-0x7FFF` are defined for every loaded ROM length.  The code violates
this: after `LoadROM` with an image shorter than one 16 KiB bank (here the
empty image), `CurrentRomBank` computes `bank % (rom_.size() / kBankSize)`
with a zero divisor, so `Read(0x4000)` is undefined behaviour (modelled as
`none`) instead of returning `0xFF`. -/
theorem C1_read_bank_divide_by_zero :
    MMU.Read (MMU.LoadROM MMU.construct []) 0x4000 = none :=
  MMU.Read_bank_none _ _ (by omega) (by omega) rfl

/-- C2 counterexample: the claim says that after `MMU::Reset` the mapper
control registers hold their initial values (`ram_enable = false`,
`rom_bank_low5 = 1`, `rom_bank_high2 = 0`, `banking_mode = 0`).  On the state
`c2State` the registers are untouched by `Reset`, so the claim is false. -/
theorem C2_reset_mapper_counterexample :
    (MMU.Reset c2State).ram_enable_ = true ∧
    (MMU.Reset c2State).rom_bank_low5_ = 5 ∧
    (MMU.Reset c2State).rom_bank_high2_ = 2 ∧
    (MMU.Reset c2State).banking_mode_ = 1 ∧
    ¬ ((MMU.Reset c2State).ram_enable_ = false ∧
       (MMU.Reset c2State).rom_bank_low5_ = 1 ∧
       (MMU.Reset c2State).rom_bank_high2_ = 0 ∧
       (MMU.Reset c2State).banking_mode_ = 0) := by
  refine ⟨rfl, rfl, rfl, rfl, ?_⟩
  intro h
  exact absurd h.1 (by decide)

/-- C2 amended: `MMU::Reset` zeroes every on-board memory region and the
interrupt-enable byte but leaves the four mapper control registers (and the
ROM image) unchanged; it is `MMU::LoadROM` that sets `ram_enable = false`,
`rom_bank_low5 = 1`, `rom_bank_high2 = 0`, `banking_mode = 0`. -/
theorem C2_reset_amended (m : MMU) (rom_data : List Nat) :
    (MMU.Reset m).vram_ = (fun _ => 0) ∧ (MMU.Reset m).ext_ram_ = (fun _ => 0) ∧
    (MMU.Reset m).wram0_ = (fun _ => 0) ∧ (MMU.Reset m).wram1_ = (fun _ => 0) ∧
    (MMU.Reset m).oam_ = (fun _ => 0) ∧ (MMU.Reset m).io_regs_ = (fun _ => 0) ∧
    (MMU.Reset m).hram_ = (fun _ => 0) ∧ (MMU.Reset m).interrupt_enable_ = 0 ∧
    (MMU.Reset m).ram_enable_ = m.ram_enable_ ∧
    (MMU.Reset m).rom_bank_low5_ = m.rom_bank_low5_ ∧
    (MMU.Reset m).rom_bank_high2_ = m.rom_bank_high2_ ∧
    (MMU.Reset m).banking_mode_ = m.banking_mode_ ∧
    (MMU.Reset m).rom_ = m.rom_ ∧
    (MMU.LoadROM m rom_data).ram_enable_ = false ∧
    (MMU.LoadROM m rom_data).rom_bank_low5_ = 1 ∧
    (MMU.LoadROM m rom_data).rom_bank_high2_ = 0 ∧
    (MMU.LoadROM m rom_data).banking_mode_ = 0 :=
  ⟨rfl, rfl, rfl, rfl, rfl, rfl, rfl, rfl, rfl, rfl, rfl, rfl, rfl, rfl, rfl, rfl, rfl⟩

/-- Writing `0x01` to `0x2000` on a one-bank (16 KiB) image makes the
effective ROM bank `1 % 1 = 0`. -/
theorem c3_one_bank_aux (m : MMU) (hlen : m.rom_.length = 0x4000) :
    (MMU.Write m 0x2000 0x01).bind MMU.CurrentRomBank = some 0 := by
  rw [MMU.Write_low5 _ _ _ (by omega) (by omega)]
  rw [Option.some_bind, MMU.CurrentRomBank_eq_merged]
  have hROM : ({m with rom_bank_low5_ := 0x01 &&& 0x1F} : MMU).rom_ = m.rom_ := rfl
  rw [hROM, hlen, if_neg (by norm_num [kBankSize])]
  norm_num [kBankSize, Nat.mod_one]

/-- C3 counterexample: the claim says the effective ROM bank after a write in
`[0x2000, 0x3FFF]` is never `0x00`.  With a one-bank image loaded, writing
`0x01` to `0x2000` gives merged bank `1`, and the reduction
`1 % max_banks = 1 % 1 = 0`: the effective bank used for `0x4000-0x7FFF`
reads is `0x00`. -/
theorem C3_effective_bank_zero_counterexample :
    (MMU.Write (MMU.LoadROM MMU.construct oneBankRom) 0x2000 0x01).bind
      MMU.CurrentRomBank = some 0 :=
  c3_one_bank_aux _ (List.length_replicate _ _)

/-- C3 amended: after any write at `a ∈ [0x2000, 0x3FFF]`, the merged bank
value before the modulo reduction (zero low-5 field remapped to +1) is never
`0x00`, `0x20`, `0x40`, or `0x60`; the effective bank is that value reduced
modulo the number of 16 KiB banks, which can be `0x00` when the bank count
divides it (see the counterexample with a one-bank image). -/
theorem C3_bank_remap_amended (m : MMU) (a v : Nat)
    (h1 : 0x2000 ≤ a) (h2 : a ≤ 0x3FFF) :
    ∃ m', MMU.Write m a v = some m' ∧ C3Post m' := by
  refine ⟨_, MMU.Write_low5 m a v h1 (by omega), ?_, ?_, ?_, ?_,
    MMU.CurrentRomBank_eq_merged _⟩
  all_goals
    intro hEq
    have hne := MMU.mergedRomBank_low5_ne_zero {m with rom_bank_low5_ := v &&& 0x1F}
    rw [hEq] at hne
    exact hne (by decide)

/-- C3 amended, applied: the one-bank image with a write of `0x01` at
`0x2000` satisfies the amended statement. -/
theorem C3_bank_remap_amended_witness :
    (0x2000 ≤ 0x2000 ∧ (0x2000 : Nat) ≤ 0x3FFF) ∧
    (∃ m', MMU.Write (MMU.LoadROM MMU.construct oneBankRom) 0x2000 0x01 = some m' ∧
      C3Post m') :=
  ⟨⟨by omega, by omega⟩,
   C3_bank_remap_amended (MMU.LoadROM MMU.construct oneBankRom) 0x2000 0x01
     (by omega) (by omega)⟩

/-- C6: echo-RAM aliasing.  A write in `[0xE000, 0xFDFF]` lands at
`a - 0x2000` and is visible both there and through the echo; a write in
`[0xC000, 0xDDFF]` is visible through `a + 0x2000`. -/
theorem C6_echo_ram (m : MMU) (a b v : Nat)
    (ha1 : 0xE000 ≤ a) (ha2 : a ≤ 0xFDFF) (hb1 : 0xC000 ≤ b) (hb2 : b ≤ 0xDDFF) :
    (∃ m', MMU.Write m a v = some m' ∧
      MMU.Read m' (a - 0x2000) = some v ∧ MMU.Read m' a = some v) ∧
    (∃ m', MMU.Write m b v = some m' ∧ MMU.Read m' (b + 0x2000) = some v) := by
  constructor
  · rw [MMU.Write_echo m a v (by omega) (by omega)]
    by_cases hc : a - 0x2000 < 0xD000
    · rw [MMU.Write_wram0 m _ v (by omega) hc]
      refine ⟨_, rfl, ?_, ?_⟩
      · rw [MMU.Read_wram0 _ _ (by omega) hc]
        simp
      · rw [MMU.Read_echo _ _ (by omega) (by omega), MMU.Read_wram0 _ _ (by omega) hc]
        simp
    · rw [MMU.Write_wram1 m _ v (by omega) (by omega)]
      refine ⟨_, rfl, ?_, ?_⟩
      · rw [MMU.Read_wram1 _ _ (by omega) (by omega)]
        simp
      · rw [MMU.Read_echo _ _ (by omega) (by omega), MMU.Read_wram1 _ _ (by omega) (by omega)]
        simp
  · by_cases hc : b < 0xD000
    · rw [MMU.Write_wram0 m b v (by omega) hc]
      refine ⟨_, rfl, ?_⟩
      rw [MMU.Read_echo _ _ (by omega) (by omega), Nat.add_sub_cancel,
          MMU.Read_wram0 _ _ (by omega) hc]
      simp
    · rw [MMU.Write_wram1 m b v (by omega) (by omega)]
      refine ⟨_, rfl, ?_⟩
      rw [MMU.Read_echo _ _ (by omega) (by omega), Nat.add_sub_cancel,
          MMU.Read_wram1 _ _ (by omega) (by omega)]
      simp

/-- C6 applied at `a = 0xE123`, `b = 0xC000`, `v = 0x55`. -/
theorem C6_echo_ram_witness :
    (0xE000 ≤ 0xE123 ∧ (0xE123 : Nat) ≤ 0xFDFF ∧
     0xC000 ≤ 0xC000 ∧ (0xC000 : Nat) ≤ 0xDDFF) ∧
    ((∃ m', MMU.Write MMU.construct 0xE123 0x55 = some m' ∧
       MMU.Read m' (0xE123 - 0x2000) = some 0x55 ∧ MMU.Read m' 0xE123 = some 0x55) ∧
     (∃ m', MMU.Write MMU.construct 0xC000 0x55 = some m' ∧
       MMU.Read m' (0xC000 + 0x2000) = some 0x55)) :=
  ⟨⟨by omega, by omega, by omega, by omega⟩,
   C6_echo_ram MMU.construct 0xE123 0xC000 0x55 (by omega) (by omega) (by omega) (by omega)⟩

theorem MMU.Read_ie (m : MMU) (a : Nat) (h1 : 0xFFFF ≤ a) :
    MMU.Read m a = some m.interrupt_enable_ := by
  rw [MMU.Read.eq_def]
  rw [dif_neg (by omega), dif_neg (by omega), dif_neg (by omega), dif_neg (by omega),
      dif_neg (by omega), dif_neg (by omega), dif_neg (by omega), dif_neg (by omega),
      dif_neg (by omega), dif_neg (by omega), dif_neg (by omega)]

/-- Totality of reads: `MMU::Read` returns a byte everywhere except in the switchable-bank
region of a bankless image: outside `[0x4000, 0x8000)`, or whenever the
truncated bank count is nonzero, the read is defined. -/
theorem MMU.Read_isSome (m : MMU) (a : Nat)
    (h : a < 0x4000 ∨ 0x8000 ≤ a ∨ (m.rom_.length / kBankSize) % 256 ≠ 0) :
    (MMU.Read m a).isSome := by
  by_cases h1 : a < 0x4000
  · rw [MMU.Read_rom0 m a h1]; rfl
  by_cases h2 : a < 0x8000
  · have hmb : (m.rom_.length / kBankSize) % 256 ≠ 0 := by
      rcases h with h | h | h
      · omega
      · omega
      · exact h
    obtain ⟨bank, hb⟩ : ∃ bank, m.CurrentRomBank = some bank := by
      rw [MMU.CurrentRomBank_eq_merged, if_neg hmb]
      exact ⟨_, rfl⟩
    rw [MMU.Read_bank_some m a bank (by omega) h2 hb]; rfl
  by_cases h3 : a < 0xA000
  · rw [MMU.Read_vram m a (by omega) h3]; rfl
  by_cases h4 : a < 0xC000
  · rw [MMU.Read_extram m a (by omega) h4]
    rfl
  by_cases h5 : a < 0xD000
  · rw [MMU.Read_wram0 m a (by omega) h5]; rfl
  by_cases h6 : a < 0xE000
  · rw [MMU.Read_wram1 m a (by omega) h6]; rfl
  by_cases h7 : a < 0xFE00
  · rw [MMU.Read_echo m a (by omega) h7]
    by_cases h7a : a - 0x2000 < 0xD000
    · rw [MMU.Read_wram0 m _ (by omega) h7a]; rfl
    · rw [MMU.Read_wram1 m _ (by omega) (by omega)]; rfl
  by_cases h8 : a < 0xFEA0
  · rw [MMU.Read_oam m a (by omega) h8]; rfl
  by_cases h9 : a < 0xFF00
  · rw [MMU.Read_unusable m a (by omega) h9]; rfl
  by_cases h10 : a < 0xFF80
  · rw [MMU.Read_io m a (by omega) h10]; rfl
  by_cases h11 : a < 0xFFFF
  · rw [MMU.Read_hram m a (by omega) h11]; rfl
  · rw [MMU.Read_ie m a (by omega)]; rfl

/-- The DMA loop succeeds and touches only `oam_` when every source read in
the remaining iterations is defined. -/
theorem MMU.dmaFrom_some (src : Nat) :
    ∀ fuel i m,
      (∀ k, i ≤ k → k < i + fuel →
        ((src + k) % 65536 < 0x4000 ∨ 0x8000 ≤ (src + k) % 65536 ∨
         (m.rom_.length / kBankSize) % 256 ≠ 0)) →
      ∃ mc, MMU.dmaFrom src i fuel m = some mc ∧
        mc.rom_ = m.rom_ ∧ mc.io_regs_ = m.io_regs_ := by
  intro fuel
  induction fuel with
  | zero => exact fun i m _ => ⟨m, rfl, rfl, rfl⟩
  | succ n ih =>
      intro i m hk
      have hrd := MMU.Read_isSome m ((src + i) % 65536) (hk i (by omega) (by omega))
      obtain ⟨b, hb⟩ := Option.isSome_iff_exists.mp hrd
      have step : MMU.dmaFrom src i (n + 1) m =
          MMU.dmaFrom src (i + 1) n {m with oam_ := fun j => if j = i then b else m.oam_ j} := by
        rw [MMU.dmaFrom, hb]
      obtain ⟨mc, hmc, hrom, hio⟩ :=
        ih (i + 1) {m with oam_ := fun j => if j = i then b else m.oam_ j}
          (fun k hk1 hk2 => hk k (by omega) (by omega))
      exact ⟨mc, by rw [step, hmc], hrom, hio⟩

/-- For a byte-valued DMA register value the source loop and the claim's copy
agree step by step. -/
theorem MMU.dmaFrom_eq_specAux (v : Nat) (hv : v < 256) :
    ∀ fuel k m, k + fuel ≤ 160 →
      MMU.dmaFrom ((v <<< 8) % 65536) k fuel m = specOamCopyAux v k fuel m := by
  intro fuel
  induction fuel with
  | zero => intro k m _; rfl
  | succ n ih =>
      intro k m hk
      have haddr : ((v <<< 8) % 65536 + k) % 65536 = (v <<< 8) + k := by
        rw [Nat.shiftLeft_eq]
        norm_num
        omega
      rw [MMU.dmaFrom, specOamCopyAux, haddr]
      cases MMU.Read m ((v <<< 8) + k) with
      | none => rfl
      | some byte => exact ih (k + 1) _ (by omega)

/-- C5 amended: `Write(0xFF46, v)` performs the claimed 160-byte OAM copy and
stores `v` in the I/O register, provided the 160 source reads are defined —
that is, when the image's truncated bank count is nonzero or `v` does not
address the switchable-ROM region.  (Without that proviso the copy hits the
`CurrentRomBank` division by zero; see the counterexample.) -/
theorem C5_oam_dma_amended (m : MMU) (v : Nat) (hv : v < 256)
    (hdef : (m.rom_.length / kBankSize) % 256 ≠ 0 ∨ v < 0x40 ∨ 0x80 ≤ v) :
    ∃ m', MMU.Write m 0xFF46 v = some m' ∧ C5Post m v m' := by
  rw [MMU.Write_dma]
  have hsrc : ∀ k, 0 ≤ k → k < 0 + kOamSize →
      (((v <<< 8) % 65536 + k) % 65536 < 0x4000 ∨
       0x8000 ≤ ((v <<< 8) % 65536 + k) % 65536 ∨
       (m.rom_.length / kBankSize) % 256 ≠ 0) := by
    intro k _ hk2
    have hOam : (kOamSize : Nat) = 160 := rfl
    rw [hOam] at hk2
    rcases hdef with hbanks | hlo | hhi
    · exact Or.inr (Or.inr hbanks)
    · refine Or.inl ?_
      rw [Nat.shiftLeft_eq]
      norm_num
      omega
    · refine Or.inr (Or.inl ?_)
      rw [Nat.shiftLeft_eq]
      norm_num
      omega
  obtain ⟨mc, hmc, hrom, hio⟩ := MMU.dmaFrom_some ((v <<< 8) % 65536) kOamSize 0 m hsrc
  rw [hmc]
  simp only [Option.map_some']
  refine ⟨_, rfl, ⟨mc, ?_, rfl⟩, ?_, ?_⟩
  · show specOamCopyAux v 0 160 m = some mc
    rw [← MMU.dmaFrom_eq_specAux v hv 160 0 m (by omega)]
    exact hmc
  · rw [hio]
  · rw [MMU.Read_io _ _ (by omega) (by omega)]
    simp

/-- C5 applied at the constructor state with `v = 0xC0` (a work-RAM source). -/
theorem C5_oam_dma_amended_witness :
    ((0xC0 : Nat) < 256 ∧
     ((MMU.construct.rom_.length / kBankSize) % 256 ≠ 0 ∨ (0xC0 : Nat) < 0x40 ∨
      (0x80 : Nat) ≤ 0xC0)) ∧
    (∃ m', MMU.Write MMU.construct 0xFF46 0xC0 = some m' ∧ C5Post MMU.construct 0xC0 m') :=
  ⟨⟨by omega, Or.inr (Or.inr (by omega))⟩,
   C5_oam_dma_amended MMU.construct 0xC0 (by omega) (Or.inr (Or.inr (by omega)))⟩

theorem MMU.dmaFrom_step_none (src i fuel : Nat) (m : MMU)
    (h : MMU.Read m ((src + i) % 65536) = none) :
    MMU.dmaFrom src i (fuel + 1) m = none := by
  rw [MMU.dmaFrom, h]

/-- C5 counterexample: with an empty ROM image loaded, `Write(0xFF46, 0x40)`
does not perform the claimed copy at all — its first source read,
`Read(0x4000)`, hits the `CurrentRomBank` division by zero (modelled `none`),
refuting the claim's "for every MMU state and every byte v". -/
theorem C5_oam_dma_counterexample :
    MMU.Write (MMU.LoadROM MMU.construct []) 0xFF46 0x40 = none := by
  rw [MMU.Write_dma]
  have h160 : (kOamSize : Nat) = 159 + 1 := by norm_num [kOamSize]
  have hr : MMU.Read (MMU.LoadROM MMU.construct [])
      ((((0x40 : Nat) <<< 8) % 65536 + 0) % 65536) = none := by
    have ha : (((0x40 : Nat) <<< 8) % 65536 + 0) % 65536 = 0x4000 := by decide
    rw [ha]
    exact MMU.Read_bank_none _ _ (by omega) (by omega) rfl
  rw [h160, MMU.dmaFrom_step_none _ _ _ _ hr]
  rfl

/-- Splitting a 16-bit word into bytes and re-joining them restores it. -/
theorem word_split_join (w : Nat) (hw : w < 65536) :
    ((((w >>> 8) % 256) <<< 8) ||| (w &&& 0xFF)) % 65536 = w := by
  have h8 : (0xFF : Nat) = 2 ^ 8 - 1 := rfl
  rw [h8, Nat.and_pow_two_sub_one_eq_mod, Nat.shiftRight_eq_div_pow, Nat.shiftLeft_eq]
  have hd : w / 2 ^ 8 % 256 = w / 2 ^ 8 := Nat.mod_eq_of_lt (by norm_num; omega)
  rw [hd, Nat.mul_comm (w / 2 ^ 8) (2 ^ 8),
      ← Nat.mul_add_lt_is_or (i := 8) (by norm_num [Nat.mod_lt]) (w / 2 ^ 8)]
  omega

/-- Merging two bytes with shift-or is the same as positional addition. -/
theorem shl8_or_eq (b c : Nat) (hc : c < 256) : (b <<< 8) ||| c = 256 * b + c := by
  rw [Nat.shiftLeft_eq]
  have h := Nat.mul_add_lt_is_or (i := 8) (b := c) (by norm_num; omega) b
  rw [Nat.mul_comm b (2 ^ 8), ← h]

/-- The high byte of a merged byte pair. -/
theorem pair_hi (b c : Nat) (hb : b < 256) (hc : c < 256) :
    ((((b <<< 8) ||| c) % 65536) >>> 8) % 256 = b := by
  rw [shl8_or_eq b c hc, Nat.shiftRight_eq_div_pow]
  norm_num
  omega

/-- The low byte of a merged byte pair. -/
theorem pair_lo (b c : Nat) (hc : c < 256) :
    (((b <<< 8) ||| c) % 65536) &&& 0xFF = c := by
  have h8 : (0xFF : Nat) = 2 ^ 8 - 1 := rfl
  rw [shl8_or_eq b c hc, h8, Nat.and_pow_two_sub_one_eq_mod]
  norm_num
  omega

/-- Writing to a `StackSafe` address always succeeds, is read back exactly,
and leaves every other `StackSafe` address unchanged. -/
theorem MMU.stack_write (m : MMU) (a v : Nat) (h : StackSafe a) :
    ∃ m', MMU.Write m a v = some m' ∧ MMU.Read m' a = some v ∧
      (∀ b, StackSafe b → b ≠ a → MMU.Read m' b = MMU.Read m b) := by
  rcases h with ⟨h1, h2⟩ | ⟨h1, h2⟩
  · by_cases hc : a < 0xD000
    · refine ⟨_, MMU.Write_wram0 m a v h1 hc, ?_, ?_⟩
      · rw [MMU.Read_wram0 _ _ h1 hc]
        simp
      · intro b hb hne
        rcases hb with ⟨hb1, hb2⟩ | ⟨hb1, hb2⟩
        · by_cases hbc : b < 0xD000
          · rw [MMU.Read_wram0 _ b hb1 hbc, MMU.Read_wram0 m b hb1 hbc]
            simp only []
            rw [if_neg (by omega)]
          · rw [MMU.Read_wram1 _ b (by omega) hb2, MMU.Read_wram1 m b (by omega) hb2]
        · rw [MMU.Read_hram _ b hb1 hb2, MMU.Read_hram m b hb1 hb2]
    · refine ⟨_, MMU.Write_wram1 m a v (by omega) h2, ?_, ?_⟩
      · rw [MMU.Read_wram1 _ _ (by omega) h2]
        simp
      · intro b hb hne
        rcases hb with ⟨hb1, hb2⟩ | ⟨hb1, hb2⟩
        · by_cases hbc : b < 0xD000
          · rw [MMU.Read_wram0 _ b hb1 hbc, MMU.Read_wram0 m b hb1 hbc]
          · rw [MMU.Read_wram1 _ b (by omega) hb2, MMU.Read_wram1 m b (by omega) hb2]
            simp only []
            rw [if_neg (by omega)]
        · rw [MMU.Read_hram _ b hb1 hb2, MMU.Read_hram m b hb1 hb2]
  · refine ⟨_, MMU.Write_hram m a v h1 h2, ?_, ?_⟩
    · rw [MMU.Read_hram _ _ h1 h2]
      simp
    · intro b hb hne
      rcases hb with ⟨hb1, hb2⟩ | ⟨hb1, hb2⟩
      · by_cases hbc : b < 0xD000
        · rw [MMU.Read_wram0 _ b hb1 hbc, MMU.Read_wram0 m b hb1 hbc]
        · rw [MMU.Read_wram1 _ b (by omega) hb2, MMU.Read_wram1 m b (by omega) hb2]
      · rw [MMU.Read_hram _ b hb1 hb2, MMU.Read_hram m b hb1 hb2]
        simp only []
        rw [if_neg (by omega)]

/-- Outcome of `PushWord` when both stack writes succeed: SP has moved down
by two (wrapping) and the registers are untouched. -/
theorem PushWord_eq (s : GB) (w : Nat) (m1 m2 : MMU)
    (hw1 : MMU.Write s.mmu ((s.cpu.sp_ + 65535) % 65536) ((w >>> 8) % 256) = some m1)
    (hw2 : MMU.Write m1 (((s.cpu.sp_ + 65535) % 65536 + 65535) % 65536) (w &&& 0xFF) =
      some m2) :
    ∃ s1, PushWord s w = some s1 ∧ s1.mmu = m2 ∧
      s1.cpu.sp_ = ((s.cpu.sp_ + 65535) % 65536 + 65535) % 65536 ∧
      s1.cpu.a_ = s.cpu.a_ ∧ s1.cpu.f_ = s.cpu.f_ ∧ s1.cpu.b_ = s.cpu.b_ ∧
      s1.cpu.c_ = s.cpu.c_ ∧ s1.cpu.d_ = s.cpu.d_ ∧ s1.cpu.e_ = s.cpu.e_ ∧
      s1.cpu.h_ = s.cpu.h_ ∧ s1.cpu.l_ = s.cpu.l_ := by
  refine ⟨⟨{s.cpu with sp_ := ((s.cpu.sp_ + 65535) % 65536 + 65535) % 65536}, m2⟩,
    ?_, rfl, rfl, rfl, rfl, rfl, rfl, rfl, rfl, rfl, rfl⟩
  rw [PushWord, hw1, Option.some_bind, hw2, Option.map_some']

/-- Outcome of `PopWord` when both stack reads return: the merged word comes
back, SP has moved up by two (wrapping) and the registers are untouched. -/
theorem PopWord_eq (s : GB) (lo hi : Nat)
    (hlo : MMU.Read s.mmu s.cpu.sp_ = some lo)
    (hhi : MMU.Read s.mmu ((s.cpu.sp_ + 1) % 65536) = some hi) :
    ∃ s2, PopWord s = some (((hi <<< 8) ||| lo) % 65536, s2) ∧ s2.mmu = s.mmu ∧
      s2.cpu.sp_ = ((s.cpu.sp_ + 1) % 65536 + 1) % 65536 ∧
      s2.cpu.a_ = s.cpu.a_ ∧ s2.cpu.f_ = s.cpu.f_ ∧ s2.cpu.b_ = s.cpu.b_ ∧
      s2.cpu.c_ = s.cpu.c_ ∧ s2.cpu.d_ = s.cpu.d_ ∧ s2.cpu.e_ = s.cpu.e_ ∧
      s2.cpu.h_ = s.cpu.h_ ∧ s2.cpu.l_ = s.cpu.l_ := by
  refine ⟨⟨{s.cpu with sp_ := ((s.cpu.sp_ + 1) % 65536 + 1) % 65536}, s.mmu⟩,
    ?_, rfl, rfl, rfl, rfl, rfl, rfl, rfl, rfl, rfl, rfl⟩
  rw [PopWord, hlo, Option.some_bind, hhi, Option.map_some']

/-- Running `PushWord` followed by `PopWord` returns the pushed word and
restores SP and every register, provided both stack bytes land in
`StackSafe` memory. -/
theorem PushWord_PopWord (s : GB) (w : Nat) (hw : w < 65536) (hsp : s.cpu.sp_ < 65536)
    (h1 : StackSafe ((s.cpu.sp_ + 65535) % 65536))
    (h2 : StackSafe (((s.cpu.sp_ + 65535) % 65536 + 65535) % 65536)) :
    ∃ s1 s2, PushWord s w = some s1 ∧ PopWord s1 = some (w, s2) ∧
      s2.cpu.sp_ = s.cpu.sp_ ∧
      s2.cpu.a_ = s.cpu.a_ ∧ s2.cpu.f_ = s.cpu.f_ ∧ s2.cpu.b_ = s.cpu.b_ ∧
      s2.cpu.c_ = s.cpu.c_ ∧ s2.cpu.d_ = s.cpu.d_ ∧ s2.cpu.e_ = s.cpu.e_ ∧
      s2.cpu.h_ = s.cpu.h_ ∧ s2.cpu.l_ = s.cpu.l_ := by
  obtain ⟨m1, hw1, hr1, hf1⟩ := MMU.stack_write s.mmu ((s.cpu.sp_ + 65535) % 65536)
    ((w >>> 8) % 256) h1
  obtain ⟨m2, hw2, hr2, hf2⟩ := MMU.stack_write m1
    (((s.cpu.sp_ + 65535) % 65536 + 65535) % 65536) (w &&& 0xFF) h2
  have hne : (s.cpu.sp_ + 65535) % 65536 ≠ ((s.cpu.sp_ + 65535) % 65536 + 65535) % 65536 := by
    omega
  obtain ⟨s1, hpush, hs1m, hs1sp, hs1a, hs1f, hs1b, hs1c, hs1d, hs1e, hs1h, hs1l⟩ :=
    PushWord_eq s w m1 m2 hw1 hw2
  have hlo : MMU.Read s1.mmu s1.cpu.sp_ = some (w &&& 0xFF) := by
    rw [hs1m, hs1sp]
    exact hr2
  have hhi : MMU.Read s1.mmu ((s1.cpu.sp_ + 1) % 65536) = some ((w >>> 8) % 256) := by
    rw [hs1m, hs1sp]
    have e1 : (((s.cpu.sp_ + 65535) % 65536 + 65535) % 65536 + 1) % 65536 =
        (s.cpu.sp_ + 65535) % 65536 := by omega
    rw [e1, hf2 _ h1 hne]
    exact hr1
  obtain ⟨s2, hpop, hs2m, hs2sp, hs2a, hs2f, hs2b, hs2c, hs2d, hs2e, hs2h, hs2l⟩ :=
    PopWord_eq s1 (w &&& 0xFF) ((w >>> 8) % 256) hlo hhi
  rw [word_split_join w hw] at hpop
  refine ⟨s1, s2, hpush, hpop, ?_, ?_, ?_, ?_, ?_, ?_, ?_, ?_, ?_⟩
  · rw [hs2sp, hs1sp]
    omega
  · rw [hs2a, hs1a]
  · rw [hs2f, hs1f]
  · rw [hs2b, hs1b]
  · rw [hs2c, hs1c]
  · rw [hs2d, hs1d]
  · rw [hs2e, hs1e]
  · rw [hs2h, hs1h]
  · rw [hs2l, hs1l]

/-- C7: `PUSH rr; POP rr` restores the pair and SP for BC, DE, HL and AF
when both stack bytes land in side-effect-free writable memory; `POP AF`
restores A exactly and forces the low nibble of F to zero. -/
theorem C7_push_pop_roundtrip (s : GB) (hsp : s.cpu.sp_ < 65536)
    (hb : s.cpu.b_ < 256) (hc : s.cpu.c_ < 256) (hd : s.cpu.d_ < 256)
    (he : s.cpu.e_ < 256) (hh : s.cpu.h_ < 256) (hl : s.cpu.l_ < 256)
    (ha : s.cpu.a_ < 256) (hf : s.cpu.f_ < 256)
    (h1 : StackSafe ((s.cpu.sp_ + 65535) % 65536))
    (h2 : StackSafe (((s.cpu.sp_ + 65535) % 65536 + 65535) % 65536)) :
    C7Restores s := by
  refine ⟨?_, ?_, ?_, ?_⟩
  · obtain ⟨s1, s2, hpush, hpop, hsp2, ha2, hf2, hb2, hc2, hd2, he2, hh2, hl2⟩ :=
      PushWord_PopWord s (((s.cpu.b_ <<< 8) ||| s.cpu.c_) % 65536)
        (Nat.mod_lt _ (by omega)) hsp h1 h2
    refine ⟨_, by rw [OpPUSH_BC, hpush, Option.some_bind, OpPOP_BC, hpop,
      Option.map_some'], ?_, ?_, ?_⟩
    · exact pair_hi _ _ hb hc
    · exact pair_lo _ _ hc
    · exact hsp2
  · obtain ⟨s1, s2, hpush, hpop, hsp2, ha2, hf2, hb2, hc2, hd2, he2, hh2, hl2⟩ :=
      PushWord_PopWord s (((s.cpu.d_ <<< 8) ||| s.cpu.e_) % 65536)
        (Nat.mod_lt _ (by omega)) hsp h1 h2
    refine ⟨_, by rw [OpPUSH_DE, hpush, Option.some_bind, OpPOP_DE, hpop,
      Option.map_some'], ?_, ?_, ?_⟩
    · exact pair_hi _ _ hd he
    · exact pair_lo _ _ he
    · exact hsp2
  · obtain ⟨s1, s2, hpush, hpop, hsp2, ha2, hf2, hb2, hc2, hd2, he2, hh2, hl2⟩ :=
      PushWord_PopWord s s.cpu.hl (Nat.mod_lt _ (by omega)) hsp h1 h2
    refine ⟨_, by rw [OpPUSH_HL, hpush, Option.some_bind, OpPOP_HL, hpop,
      Option.map_some'], ?_, ?_, ?_⟩
    · exact pair_hi _ _ hh hl
    · exact pair_lo _ _ hl
    · exact hsp2
  · obtain ⟨s1, s2, hpush, hpop, hsp2, ha2, hf2, hb2, hc2, hd2, he2, hh2, hl2⟩ :=
      PushWord_PopWord s (((s.cpu.a_ <<< 8) ||| s.cpu.f_) % 65536)
        (Nat.mod_lt _ (by omega)) hsp h1 h2
    refine ⟨_, by rw [OpPUSH_AF, hpush, Option.some_bind, OpPOP_AF, hpop,
      Option.map_some'], ?_, ?_, ?_⟩
    · exact pair_hi _ _ ha hf
    · show ((((s.cpu.a_ <<< 8) ||| s.cpu.f_) % 65536) &&& 0xF0) &&& 0x0F = 0
      have h0 : (0xF0 &&& 0x0F : Nat) = 0 := by decide
      rw [Nat.and_assoc, h0, Nat.and_zero]
    · exact hsp2

/-- C7 applied at `c7Machine`: both stack bytes land in work RAM. -/
theorem C7_push_pop_roundtrip_witness :
    (c7Machine.cpu.sp_ < 65536 ∧ c7Machine.cpu.b_ < 256 ∧ c7Machine.cpu.f_ < 256 ∧
     StackSafe ((c7Machine.cpu.sp_ + 65535) % 65536) ∧
     StackSafe (((c7Machine.cpu.sp_ + 65535) % 65536 + 65535) % 65536)) ∧
    C7Restores c7Machine :=
  ⟨⟨by decide, by decide, by decide, by unfold StackSafe; decide,
    by unfold StackSafe; decide⟩,
   C7_push_pop_roundtrip c7Machine (by decide) (by decide) (by decide) (by decide)
     (by decide) (by decide) (by decide) (by decide) (by decide)
     (by unfold StackSafe; decide) (by unfold StackSafe; decide)⟩

/-- C4 amended: executing `ADD SP, r8` with SP = 0 and operand byte `0xFF`
yields SP = `0xFFFF` with Z = N = H = C = 0. -/
theorem C4_add_sp_minus_one_amended (s : GB) (hsp : s.cpu.sp_ = 0)
    (hop : MMU.Read s.mmu s.cpu.pc_ = some 0xFF) :
    ∃ s', OpADD_SP_r8 s = some s' ∧ C4Post s' := by
  simp only [OpADD_SP_r8, Fetch8, FetchOpcode, hop, Option.map_some']
  refine ⟨_, rfl, ?_, ?_, ?_, ?_, ?_⟩ <;>
    simp [GetFlag, SetFlag, int8U32, hsp, kZeroFlagMask, kSubtractFlagMask,
      kHalfCarryFlagMask, kCarryFlagMask, Nat.and_assoc,
      (by decide : ((4294901760 : Nat) &&& 256) = 0),
      (by decide : ((4294901760 : Nat) &&& 16) = 0),
      (by decide : (127 &&& (240 &&& (191 &&& (240 &&& (223 &&& (240 &&& (239 &&&
        (240 &&& 128)))))))) = (0 : Nat)),
      (by decide : (127 &&& (240 &&& (191 &&& (240 &&& (223 &&& (240 &&& (239 &&&
        (240 &&& 64)))))))) = (0 : Nat)),
      (by decide : (127 &&& (240 &&& (191 &&& (240 &&& (223 &&& (240 &&& (239 &&&
        (240 &&& 32)))))))) = (0 : Nat)),
      (by decide : (127 &&& (240 &&& (191 &&& (240 &&& (223 &&& (240 &&& (239 &&&
        (240 &&& 16)))))))) = (0 : Nat))]

/-- C4 counterexample: `ADD SP, r8` with SP = 0 and operand `0xFF` yields
SP = `0xFFFF` but `H = 0` and `C = 0` — not `H = 1, C = 1` as the claim
asserts (the low-byte sums `0x0F` and `0xFF` exceed neither `0x0F` nor
`0xFF`). -/
theorem C4_add_sp_flags_counterexample :
    (OpADD_SP_r8 c4Machine).map
        (fun s' => (s'.cpu.sp_, GetFlag s'.cpu kZeroFlagMask,
          GetFlag s'.cpu kSubtractFlagMask, GetFlag s'.cpu kHalfCarryFlagMask,
          GetFlag s'.cpu kCarryFlagMask)) =
      some (0xFFFF, false, false, false, false) ∧
    (OpADD_SP_r8 c4Machine).map
        (fun s' => (s'.cpu.sp_, GetFlag s'.cpu kHalfCarryFlagMask,
          GetFlag s'.cpu kCarryFlagMask)) ≠ some (0xFFFF, true, true) := by
  have hread : MMU.Read c4Machine.mmu c4Machine.cpu.pc_ = some 0xFF := by
    rw [MMU.Read_rom0 _ _ (by decide)]
    rfl
  constructor <;>
  · simp only [OpADD_SP_r8, Fetch8, FetchOpcode, hread, Option.map_some']
    decide

/-- C4 amended, applied at `c4Machine`. -/
theorem C4_add_sp_minus_one_amended_witness :
    (c4Machine.cpu.sp_ = 0 ∧ MMU.Read c4Machine.mmu c4Machine.cpu.pc_ = some 0xFF) ∧
    (∃ s', OpADD_SP_r8 c4Machine = some s' ∧ C4Post s') :=
  ⟨⟨rfl, by rw [MMU.Read_rom0 _ _ (by decide)]; rfl⟩,
   C4_add_sp_minus_one_amended c4Machine rfl (by rw [MMU.Read_rom0 _ _ (by decide)]; rfl)⟩

/-- C8 amended: executing opcode `0xCB` advances PC past the `0xCB` byte and
leaves every other CPU field (registers, SP, IME, `cycles_`, `ei_delay_`,
`halted_`) and the whole MMU unchanged; no condition is latched anywhere in
the state (the source handler only prints to stderr). -/
theorem C8_prefix_cb_amended (s : GB) (hop : MMU.Read s.mmu s.cpu.pc_ = some 0xCB) :
    StepAtCB s = some {s with cpu := {s.cpu with pc_ := (s.cpu.pc_ + 1) % 65536}} := by
  simp only [StepAtCB, FetchOpcode, hop, Option.map_some', Option.some_bind]
  rfl

/-- C8 counterexample: the claim says the core records a distinguishable,
test-observable condition (a latched flag or a callback) when `0xCB` is
executed.  Executing `0xCB` on `c8Machine` produces a state identical to the
original except for the advanced PC: every CPU data member (including the
candidate latches `cycles_`, `ei_delay_`, `halted_`) and the whole MMU are
unchanged, so no condition is recorded anywhere in the machine state, and
the source provides no callback interface. -/
theorem C8_no_latched_condition_counterexample :
    StepAtCB c8Machine = some {c8Machine with cpu := {c8Machine.cpu with pc_ := 1}} := by
  have hread : MMU.Read c8Machine.mmu c8Machine.cpu.pc_ = some 0xCB := by
    rw [MMU.Read_rom0 _ _ (by decide)]
    rfl
  simp only [StepAtCB, FetchOpcode, hread, Option.map_some', Option.some_bind]
  rfl

/-- C8 amended, applied at `c8Machine`. -/
theorem C8_prefix_cb_amended_witness :
    MMU.Read c8Machine.mmu c8Machine.cpu.pc_ = some 0xCB ∧
    StepAtCB c8Machine =
      some {c8Machine with cpu := {c8Machine.cpu with pc_ := (c8Machine.cpu.pc_ + 1) % 65536}} :=
  ⟨by rw [MMU.Read_rom0 _ _ (by decide)]; rfl,
   C8_prefix_cb_amended c8Machine (by rw [MMU.Read_rom0 _ _ (by decide)]; rfl)⟩

theorem bool_xor_toNat (a b : Bool) : (a.xor b).toNat = (a.toNat + b.toNat) % 2 := by
  cases a <;> cases b <;> rfl

theorem xor_div_pow_mod_two (x y i : Nat) :
    (x ^^^ y) / 2 ^ i % 2 = (x / 2 ^ i % 2 + y / 2 ^ i % 2) % 2 := by
  rw [← Nat.toNat_testBit, Nat.testBit_xor, bool_xor_toNat, Nat.toNat_testBit,
      Nat.toNat_testBit]

theorem and_two_pow_bne_zero (x i : Nat) :
    ((x &&& 2 ^ i) != 0) = decide (x / 2 ^ i % 2 = 1) := by
  rw [Nat.and_two_pow]
  rw [← Nat.toNat_testBit x i]
  cases x.testBit i <;>
    simp [Nat.ne_of_gt (Nat.two_pow_pos i)]

/-- C9: the xor formulation of H and C used by the code agrees with the
spec's low-byte-sum formulation, for every 16-bit SP and every offset
byte. -/
theorem C9_sp_offset_flag_equiv (sp b : Nat) (_hsp : sp < 65536) (_hb : b < 256) :
    spOffsetFlagsXor sp b = spOffsetFlagsLow sp b := by
  unfold spOffsetFlagsXor spOffsetFlagsLow
  have e16 : (0x10 : Nat) = 2 ^ 4 := rfl
  have e256 : (0x100 : Nat) = 2 ^ 8 := rfl
  have e15 : (0x0F : Nat) = 2 ^ 4 - 1 := rfl
  have e255 : (0xFF : Nat) = 2 ^ 8 - 1 := rfl
  refine Prod.ext ?_ ?_ <;>
    simp only [e16, e256, e15, e255, and_two_pow_bne_zero, xor_div_pow_mod_two,
      Nat.and_pow_two_sub_one_eq_mod, decide_eq_decide] <;>
    · unfold int8U32
      by_cases hb128 : b < 128 <;> simp only [hb128, if_pos, if_neg, if_true, if_false] <;>
        omega

/-- C9 applied at SP = 0, offset byte `0xFF`. -/
theorem C9_sp_offset_flag_equiv_witness :
    ((0 : Nat) < 65536 ∧ (0xFF : Nat) < 256) ∧
    spOffsetFlagsXor 0 0xFF = spOffsetFlagsLow 0 0xFF :=
  ⟨⟨by omega, by omega⟩, C9_sp_offset_flag_equiv 0 0xFF (by omega) (by omega)⟩

/-- C10: reading is observation-only.  Whenever `Read` returns at all, the
MMU state it hands back is exactly the state it was given: no memory region,
mapper register, or the interrupt-enable byte changes; in particular reading
`0xFF46` triggers no OAM-DMA and reading disabled external RAM has no
effect. -/
theorem C10_read_frame (a : Nat) (m : MMU) (p : Nat × MMU)
    (h : MMU.ReadS m a = some p) : p.2 = m := by
  induction a using Nat.strong_induction_on generalizing p with
  | _ a ih =>
    by_cases h1 : a < 0x4000
    · rw [MMU.ReadS.eq_def, dif_pos h1] at h
      cases h
      rfl
    by_cases h2 : a < 0x8000
    · rw [MMU.ReadS.eq_def, dif_neg h1, dif_pos h2] at h
      rcases hb : m.CurrentRomBank with _ | bank <;> rw [hb] at h
      · cases h
      · cases h
        rfl
    by_cases h3 : a < 0xA000
    · rw [MMU.ReadS.eq_def, dif_neg h1, dif_neg h2, dif_pos h3] at h
      cases h
      rfl
    by_cases h4 : a < 0xC000
    · rw [MMU.ReadS.eq_def, dif_neg h1, dif_neg h2, dif_neg h3, dif_pos h4] at h
      cases h
      rfl
    by_cases h5 : a < 0xD000
    · rw [MMU.ReadS.eq_def, dif_neg h1, dif_neg h2, dif_neg h3, dif_neg h4,
          dif_pos h5] at h
      cases h
      rfl
    by_cases h6 : a < 0xE000
    · rw [MMU.ReadS.eq_def, dif_neg h1, dif_neg h2, dif_neg h3, dif_neg h4,
          dif_neg h5, dif_pos h6] at h
      cases h
      rfl
    by_cases h7 : a < 0xFE00
    · rw [MMU.ReadS.eq_def, dif_neg h1, dif_neg h2, dif_neg h3, dif_neg h4,
          dif_neg h5, dif_neg h6, dif_pos h7] at h
      exact ih (a - 0x2000) (by omega) p h
    by_cases h8 : a < 0xFEA0
    · rw [MMU.ReadS.eq_def, dif_neg h1, dif_neg h2, dif_neg h3, dif_neg h4,
          dif_neg h5, dif_neg h6, dif_neg h7, dif_pos h8] at h
      cases h
      rfl
    by_cases h9 : a < 0xFF00
    · rw [MMU.ReadS.eq_def, dif_neg h1, dif_neg h2, dif_neg h3, dif_neg h4,
          dif_neg h5, dif_neg h6, dif_neg h7, dif_neg h8, dif_pos h9] at h
      cases h
      rfl
    by_cases h10 : a < 0xFF80
    · rw [MMU.ReadS.eq_def, dif_neg h1, dif_neg h2, dif_neg h3, dif_neg h4,
          dif_neg h5, dif_neg h6, dif_neg h7, dif_neg h8, dif_neg h9, dif_pos h10] at h
      cases h
      rfl
    by_cases h11 : a < 0xFFFF
    · rw [MMU.ReadS.eq_def, dif_neg h1, dif_neg h2, dif_neg h3, dif_neg h4,
          dif_neg h5, dif_neg h6, dif_neg h7, dif_neg h8, dif_neg h9, dif_neg h10,
          dif_pos h11] at h
      cases h
      rfl
    · rw [MMU.ReadS.eq_def, dif_neg h1, dif_neg h2, dif_neg h3, dif_neg h4,
          dif_neg h5, dif_neg h6, dif_neg h7, dif_neg h8, dif_neg h9, dif_neg h10,
          dif_neg h11] at h
      cases h
      rfl

/-- C10 applied at the constructor state and address `0xFF46`. -/
theorem C10_read_frame_witness :
    MMU.ReadS MMU.construct 0xFF46 = some (0, MMU.construct) ∧
    ((0 : Nat), MMU.construct).2 = MMU.construct := by
  have h : MMU.ReadS MMU.construct 0xFF46 = some (0, MMU.construct) := by
    rw [MMU.ReadS.eq_def]
    rw [dif_neg (by decide), dif_neg (by decide), dif_neg (by decide),
        dif_neg (by decide), dif_neg (by decide), dif_neg (by decide),
        dif_neg (by decide), dif_neg (by decide), dif_neg (by decide),
        dif_pos (by decide)]
    rfl
  exact ⟨h, C10_read_frame 0xFF46 MMU.construct (0, MMU.construct) h⟩
